import Mathlib

/-!
Verification of the ping-pong latency tester (browser client `client/main.js`,
Socket.IO server `server/server.js`).

The client is the `LatencyTester` class: a session with counters
(`packetsSent`, `packetsReceived`, `lostCount`), a pending-ping map
(`Map<sequenceNumber, clientSentAt>`, iterated and extended in insertion
order, so modelled as an association list), a rolling window of RTT samples
(`rttSamples`, capacity `maxSamples = 50`), a configurable ping interval and
two timers.  The operations embedded below are direct translations of the
class methods; `Date.now()` readings become explicit `now : ℤ` parameters,
and JavaScript numbers on the metric paths become `ℚ` with
`Math.round(x) = ⌊x + 1/2⌋`.
-/

namespace PingPong

/-- `this.maxSamples = 50` in the constructor. -/
def maxSamples : ℕ := 50

/-- `this.lossTimeoutFactor = 5` in the constructor. -/
def lossTimeoutFactor : ℕ := 5

/-- `this.pingInterval = 200` in the constructor. -/
def defaultPingInterval : ℕ := 200

/-- Wire message sent by `sendPing` (`pingData` in the source). -/
structure Probe where
  sequenceNumber : ℕ
  clientSentAt : ℤ
deriving DecidableEq

/-- Wire message emitted by the server's `ping` handler (`pongData`). -/
structure Echo where
  sequenceNumber : ℕ
  clientSentAt : ℤ
  serverReceivedAt : ℤ
  serverSentAt : ℤ
deriving DecidableEq

/-- The mutable fields of a `LatencyTester` session.  `connected` is
`socket.connected`; the two timer flags record whether `pingTimer` and
`lossSweepTimer` are non-null.  `pendingPings` keeps insertion order, as a
JavaScript `Map` does. -/
structure ClientState where
  connected : Bool
  sequenceNumber : ℕ
  pingInterval : ℕ
  pingTimerActive : Bool
  lossSweepTimerActive : Bool
  rttSamples : List ℤ
  packetsSent : ℕ
  packetsReceived : ℕ
  pendingPings : List (ℕ × ℤ)
  lostCount : ℕ
deriving DecidableEq

/-- The constructor's initial field values. -/
def initialState : ClientState :=
  { connected := false
    sequenceNumber := 0
    pingInterval := defaultPingInterval
    pingTimerActive := false
    lossSweepTimerActive := false
    rttSamples := []
    packetsSent := 0
    packetsReceived := 0
    pendingPings := []
    lostCount := 0 }

/-- `sendPing()`: returns early when the socket is absent or not connected;
otherwise increments `sequenceNumber` and `packetsSent`, stores the probe in
`pendingPings`, and emits it (the emitted probe is the second component). -/
def sendPing (now : ℤ) (s : ClientState) : ClientState × Option Probe :=
  if s.connected then
    let seq := s.sequenceNumber + 1
    ({ s with
        sequenceNumber := seq
        packetsSent := s.packetsSent + 1
        pendingPings := s.pendingPings ++ [(seq, now)] },
      some { sequenceNumber := seq, clientSentAt := now })
  else (s, none)

/-- The sample-window push in `handlePong`: `push` the new RTT, then `shift`
once if the length exceeds `maxSamples`. -/
def pushSample (samples : List ℤ) (rtt : ℤ) : List ℤ :=
  let l := samples ++ [rtt]
  if maxSamples < l.length then l.tail else l

/-- `Map.prototype.delete` on an insertion-ordered association list: remove
the first (hence, for a genuine map, the only) entry with the given key. -/
def mapDelete (pending : List (ℕ × ℤ)) (seq : ℕ) : List (ℕ × ℤ) :=
  pending.eraseP (fun p => p.1 == seq)

/-- `handlePong(data)`: compute `rtt = Date.now() - data.clientSentAt`,
delete the sequence number from `pendingPings`, increment `packetsReceived`,
and push the RTT sample — all unconditionally. -/
def handlePong (now : ℤ) (data : Echo) (s : ClientState) : ClientState :=
  let rtt := now - data.clientSentAt
  { s with
      pendingPings := mapDelete s.pendingPings data.sequenceNumber
      packetsReceived := s.packetsReceived + 1
      rttSamples := pushSample s.rttSamples rtt }

/-- The loop test in `performLossSweep`: `now - clientSentAt > lossTimeout`. -/
def expired (now lossTimeout : ℤ) (p : ℕ × ℤ) : Bool :=
  decide (lossTimeout < now - p.2)

/-- `performLossSweep()`: `lossTimeout = this.pingInterval *
this.lossTimeoutFactor` (read from the current interval at sweep time); every
pending entry older than that is deleted and counted in `lostCount`. -/
def performLossSweep (now : ℤ) (s : ClientState) : ClientState :=
  let lossTimeout : ℤ := (s.pingInterval : ℤ) * (lossTimeoutFactor : ℤ)
  { s with
      lostCount := s.lostCount + (s.pendingPings.filter (expired now lossTimeout)).length
      pendingPings := s.pendingPings.filter (fun p => !(expired now lossTimeout p)) }

/-- `startPinging()`: (re)arm the ping timer, then send the first ping
immediately. -/
def startPinging (now : ℤ) (s : ClientState) : ClientState :=
  (sendPing now { s with pingTimerActive := true }).1

/-- `stopPinging()`: clear the ping timer. -/
def stopPinging (s : ClientState) : ClientState :=
  { s with pingTimerActive := false }

/-- `startLossSweep()`: (re)arm the sweep timer (cadence
`max(pingInterval, 500)`; the cadence itself does not change session state). -/
def startLossSweep (s : ClientState) : ClientState :=
  { s with lossSweepTimerActive := true }

/-- `stopLossSweep()`: clear the sweep timer. -/
def stopLossSweep (s : ClientState) : ClientState :=
  { s with lossSweepTimerActive := false }

/-- The `socket.on('connect')` handler: the socket is now connected, then
`startPinging()` (which sends immediately) and `startLossSweep()`. -/
def onConnect (now : ℤ) (s : ClientState) : ClientState :=
  startLossSweep (startPinging now { s with connected := true })

/-- The `socket.on('disconnect')` handler: the socket is no longer connected,
then `stopPinging()` and `stopLossSweep()`.  Nothing else is touched. -/
def onDisconnect (s : ClientState) : ClientState :=
  stopLossSweep (stopPinging { s with connected := false })

/-- The ping-interval `change` listener: set `pingInterval`, and when
connected stop and restart both schedules (the restart sends a ping
immediately). -/
def changePingInterval (now : ℤ) (newInterval : ℕ) (s : ClientState) :
    ClientState :=
  let s1 := { s with pingInterval := newInterval }
  if s1.connected then
    startLossSweep (startPinging now (stopLossSweep (stopPinging s1)))
  else s1

/-- The metrics record built by `calculateMetrics`. -/
structure Metrics where
  lastLatency : ℤ
  avgLatency : ℚ
  jitter : ℚ
  packetLoss : ℚ
deriving DecidableEq

/-- JavaScript `Math.round`: round half towards positive infinity. -/
def roundJS (q : ℚ) : ℤ := ⌊q + 1 / 2⌋

/-- The source's two-decimal rounding idiom `Math.round(x * 100) / 100`. -/
def round2 (q : ℚ) : ℚ := (roundJS (q * 100) : ℚ) / 100

/-- The jitter loop of `calculateMetrics`: the absolute differences of
consecutive samples, in order. -/
def absDiffs : List ℤ → List ℤ
  | [] => []
  | [_] => []
  | a :: b :: rest => |b - a| :: absDiffs (b :: rest)

/-- `calculateMetrics()`: starts from all-zero metrics; when samples exist it
fills `lastLatency` (rounded), `avgLatency` (mean, 2 decimals) and — with at
least two samples — `jitter`; `packetLoss` uses `this.packetsSent || 1` as
the denominator. -/
def calculateMetrics (s : ClientState) : Metrics :=
  let base : Metrics :=
    { lastLatency := 0, avgLatency := 0, jitter := 0, packetLoss := 0 }
  let m1 :=
    if 0 < s.rttSamples.length then
      let lastL := roundJS ((s.rttSamples.getLast?.getD 0 : ℤ) : ℚ)
      let avg := round2 ((s.rttSamples.sum : ℚ) / (s.rttSamples.length : ℚ))
      let j :=
        if 1 < s.rttSamples.length then
          round2
            (((absDiffs s.rttSamples).sum : ℚ) /
              ((s.rttSamples.length - 1 : ℕ) : ℚ))
        else base.jitter
      { base with lastLatency := lastL, avgLatency := avg, jitter := j }
    else base
  let totalSent : ℕ := if s.packetsSent = 0 then 1 else s.packetsSent
  { m1 with
      packetLoss := round2 ((s.lostCount : ℚ) / (totalSent : ℚ) * 100) }

/-- The four strings `getNetworkQuality` can return. -/
inductive Quality where
  | Unknown
  | Good
  | Moderate
  | Poor
deriving DecidableEq

/-- `getNetworkQuality(metrics)`: `Unknown` below 5 packets sent, then the
`Good` / `Moderate` / `Poor` threshold cascade. -/
def getNetworkQuality (packetsSent : ℕ) (m : Metrics) : Quality :=
  if packetsSent < 5 then .Unknown
  else if m.avgLatency < 120 ∧ m.jitter < 30 ∧ m.packetLoss < 1 then .Good
  else if m.avgLatency < 250 ∧ m.jitter < 80 ∧ m.packetLoss < 3 then .Moderate
  else .Poor

/-- The server's `socket.on('ping')` handler (`server/server.js`): it samples
`Date.now()` once for `serverReceivedAt`, later again for `serverSentAt`, and
echoes the probe's fields verbatim.  The two successive clock readings are
modelled as `clock 0` and `clock 1` for a clock function `clock`. -/
def handleProbe (clock : ℕ → ℤ) (p : Probe) : Echo :=
  let serverReceivedAt := clock 0
  let serverSentAt := clock 1
  { sequenceNumber := p.sequenceNumber
    clientSentAt := p.clientSentAt
    serverReceivedAt := serverReceivedAt
    serverSentAt := serverSentAt }

/-- One event-loop turn of a session: a connect or disconnect event, a timer
firing (`sendPing` or `performLossSweep`), a `pong` delivery (the channel may
duplicate, reorder or forge, so the echo is arbitrary), or an interval
change. -/
inductive Step : ClientState → ClientState → Prop
  | connect (now : ℤ) (s : ClientState) : Step s (onConnect now s)
  | disconnect (s : ClientState) : Step s (onDisconnect s)
  | timerPing (now : ℤ) (s : ClientState) : Step s (sendPing now s).1
  | pong (now : ℤ) (d : Echo) (s : ClientState) : Step s (handlePong now d s)
  | sweep (now : ℤ) (s : ClientState) : Step s (performLossSweep now s)
  | setIntervalMs (now : ℤ) (i : ℕ) (s : ClientState) :
      Step s (changePingInterval now i s)

/-- States a session can be in, starting from the constructor's state. -/
inductive Reachable : ClientState → Prop
  | init : Reachable initialState
  | step {s t : ClientState} : Reachable s → Step s t → Reachable t

/-- The conservation law of the spec: sent = received + lost + pending. -/
def conserved (s : ClientState) : Prop :=
  s.packetsSent = s.packetsReceived + s.lostCount + s.pendingPings.length

instance (s : ClientState) : Decidable (conserved s) := by
  unfold conserved; infer_instance

/-- A connected session with otherwise pristine state, used to instantiate
universally quantified theorems at a concrete input. -/
def connState : ClientState := { initialState with connected := true }

/-- A session whose Sample Window holds five equal RTT samples, used to
instantiate universally quantified theorems at a concrete input. -/
def constState : ClientState :=
  { initialState with rttSamples := List.replicate 5 (10 : ℤ) }

/-!
Concrete trace: connect at time 0 (which sends probe 1), receive its echo
at time 5, or change the interval at time 100.  These states drive the
counterexamples below.
-/

/-- The session right after the `connect` handler ran at time 0: probe 1 is
in flight. -/
def sConn : ClientState := onConnect 0 initialState

/-- The genuine echo of probe 1. -/
def echo1 : Echo :=
  { sequenceNumber := 1, clientSentAt := 0, serverReceivedAt := 2,
    serverSentAt := 3 }

/-- The session after `echo1` was handled at time 5: nothing is pending. -/
def sDone : ClientState := handlePong 5 echo1 sConn

/-- The session after the ping interval was changed to 1000 at time 100
(while probe 1, sent when the interval was 200, was still in flight; the
restart also sends probe 2). -/
def sIntervalChanged : ClientState := changePingInterval 100 1000 sConn

/-- The spec's wording of the jitter computation: the mean of
`|sample[i] − sample[i−1]|` over consecutive pairs of the window, rounded to
2 decimal places, and 0 when there are fewer than 2 samples.  Stated over
`zip` with the shifted list, to be compared with the source's indexed
loop (`absDiffs`). -/
def jitterSpec (l : List ℤ) : ℚ :=
  if l.length < 2 then 0
  else
    round2
      ((((l.zip l.tail).map (fun p => |p.2 - p.1|)).sum : ℤ) /
        ((l.length - 1 : ℕ) : ℚ))

section QualityLemmas

theorem quality_unknown_of_lt {n : ℕ} (m : Metrics) (h : n < 5) :
    getNetworkQuality n m = Quality.Unknown := by
  simp [getNetworkQuality, h]

theorem quality_good_iff {n : ℕ} (m : Metrics) (h : 5 ≤ n) :
    getNetworkQuality n m = Quality.Good ↔
      m.avgLatency < 120 ∧ m.jitter < 30 ∧ m.packetLoss < 1 := by
  unfold getNetworkQuality
  rw [if_neg (by omega)]
  split_ifs with h1 h2 <;> simp_all

theorem quality_moderate_iff {n : ℕ} (m : Metrics) (h : 5 ≤ n) :
    getNetworkQuality n m = Quality.Moderate ↔
      ¬(m.avgLatency < 120 ∧ m.jitter < 30 ∧ m.packetLoss < 1) ∧
        (m.avgLatency < 250 ∧ m.jitter < 80 ∧ m.packetLoss < 3) := by
  unfold getNetworkQuality
  rw [if_neg (by omega)]
  split_ifs with h1 h2 <;> simp_all

end QualityLemmas

/-- C6: `getNetworkQuality` returns `Unknown` below 5 packets sent; at 5 or
more it returns `Good` exactly when `avgLatency < 120`, `jitter < 30` and
`packetLoss < 1`, and `Moderate` exactly when the `Good` test fails but
`avgLatency < 250`, `jitter < 80` and `packetLoss < 3` (otherwise `Poor`);
on the boundary, `avgLatency = 119, jitter = 29, packetLoss = 0.9` with 5
packets sent is `Good`, while `avgLatency = 120` with the same jitter and
loss is not `Good`. -/
theorem C6_quality :
    (∀ (n : ℕ) (m : Metrics), n < 5 →
      getNetworkQuality n m = Quality.Unknown) ∧
    (∀ (n : ℕ) (m : Metrics), 5 ≤ n →
      (getNetworkQuality n m = Quality.Good ↔
        m.avgLatency < 120 ∧ m.jitter < 30 ∧ m.packetLoss < 1)) ∧
    (∀ (n : ℕ) (m : Metrics), 5 ≤ n →
      (getNetworkQuality n m = Quality.Moderate ↔
        ¬(m.avgLatency < 120 ∧ m.jitter < 30 ∧ m.packetLoss < 1) ∧
          (m.avgLatency < 250 ∧ m.jitter < 80 ∧ m.packetLoss < 3))) ∧
    getNetworkQuality 5
        { lastLatency := 119, avgLatency := 119, jitter := 29,
          packetLoss := 9 / 10 } = Quality.Good ∧
    getNetworkQuality 5
        { lastLatency := 120, avgLatency := 120, jitter := 29,
          packetLoss := 9 / 10 } ≠ Quality.Good :=
  ⟨fun _ m h => quality_unknown_of_lt m h,
   fun _ m h => quality_good_iff m h,
   fun _ m h => quality_moderate_iff m h,
   by unfold getNetworkQuality; norm_num,
   by unfold getNetworkQuality; norm_num; decide⟩

/-- Witness for C6 at concrete inputs. -/
theorem C6_quality_witness :
    getNetworkQuality 3
        { lastLatency := 0, avgLatency := 0, jitter := 0, packetLoss := 0 } =
      Quality.Unknown ∧
    (getNetworkQuality 5
          { lastLatency := 10, avgLatency := 10, jitter := 2,
            packetLoss := 0 } = Quality.Good ↔
      (10 : ℚ) < 120 ∧ (2 : ℚ) < 30 ∧ (0 : ℚ) < 1) ∧
    (getNetworkQuality 5
          { lastLatency := 200, avgLatency := 200, jitter := 2,
            packetLoss := 0 } = Quality.Moderate ↔
      ¬((200 : ℚ) < 120 ∧ (2 : ℚ) < 30 ∧ (0 : ℚ) < 1) ∧
        ((200 : ℚ) < 250 ∧ (2 : ℚ) < 80 ∧ (0 : ℚ) < 3)) :=
  ⟨C6_quality.1 3 _ (by decide),
   C6_quality.2.1 5 _ (by decide),
   C6_quality.2.2.1 5 _ (by decide)⟩

/-- C9: `sendPing` is the identity (and transmits nothing) when the channel
is not connected; when connected it allocates the next sequence number,
appends `(seq, now)` to the Pending Probe Table, increments `packetsSent`,
leaves the other counters and the Sample Window alone, and transmits the
probe `{sequenceNumber := seq, clientSentAt := now}`. -/
theorem C9_sendPing :
    (∀ (now : ℤ) (s : ClientState), s.connected = false →
      sendPing now s = (s, none)) ∧
    (∀ (now : ℤ) (s : ClientState), s.connected = true →
      (sendPing now s).1.sequenceNumber = s.sequenceNumber + 1 ∧
      (sendPing now s).1.packetsSent = s.packetsSent + 1 ∧
      (sendPing now s).1.pendingPings =
        s.pendingPings ++ [(s.sequenceNumber + 1, now)] ∧
      (sendPing now s).1.packetsReceived = s.packetsReceived ∧
      (sendPing now s).1.lostCount = s.lostCount ∧
      (sendPing now s).1.rttSamples = s.rttSamples ∧
      (sendPing now s).2 =
        some { sequenceNumber := s.sequenceNumber + 1, clientSentAt := now }) :=
  ⟨fun now s h => by simp [sendPing, h],
   fun now s h => by simp [sendPing, h]⟩

/-- Witness for C9: the disconnected no-op at the initial state, and the
connected effects at `connState`. -/
theorem C9_sendPing_witness :
    sendPing 7 initialState = (initialState, none) ∧
    (sendPing 7 connState).1.packetsSent = connState.packetsSent + 1 ∧
    (sendPing 7 connState).1.pendingPings =
      connState.pendingPings ++ [(connState.sequenceNumber + 1, 7)] :=
  ⟨C9_sendPing.1 7 initialState rfl,
   (C9_sendPing.2 7 connState rfl).2.1,
   (C9_sendPing.2 7 connState rfl).2.2.1⟩

/-- C10: when the server's clock readings are non-decreasing in the order
they are taken, every echo produced by the `ping` handler satisfies
`serverReceivedAt ≤ serverSentAt`. -/
theorem C10_echo_timestamps :
    ∀ (clock : ℕ → ℤ) (p : Probe), Monotone clock →
      (handleProbe clock p).serverReceivedAt ≤
        (handleProbe clock p).serverSentAt :=
  fun _ _ h => h (by omega)

/-- Witness for C10 with a constant clock. -/
theorem C10_echo_timestamps_witness :
    (handleProbe (fun _ => (3 : ℤ))
        { sequenceNumber := 1, clientSentAt := 0 }).serverReceivedAt ≤
      (handleProbe (fun _ => (3 : ℤ))
        { sequenceNumber := 1, clientSentAt := 0 }).serverSentAt :=
  C10_echo_timestamps (fun _ => (3 : ℤ))
    { sequenceNumber := 1, clientSentAt := 0 } monotone_const

section PendingLemmas

theorem mapDelete_of_not_mem {pending : List (ℕ × ℤ)} {seq : ℕ}
    (h : seq ∉ pending.map Prod.fst) : mapDelete pending seq = pending := by
  unfold mapDelete
  apply List.eraseP_of_forall_not
  intro a ha
  simp only [beq_iff_eq]
  intro hEq
  exact h (hEq ▸ List.mem_map_of_mem Prod.fst ha)

theorem length_mapDelete_of_mem {pending : List (ℕ × ℤ)} {seq : ℕ}
    (h : seq ∈ pending.map Prod.fst) :
    (mapDelete pending seq).length = pending.length - 1 := by
  obtain ⟨p, hp, hfst⟩ := List.mem_map.mp h
  exact List.length_eraseP_of_mem hp (by simp [hfst])

end PendingLemmas

/-- C1 counterexample: `sDone` is reachable and satisfies the conservation
law, but handling a duplicate of `echo1` (whose sequence number is no longer
pending) breaks it, because `handlePong` increments `packetsReceived`
unconditionally. -/
theorem C1_conservation_counterexample :
    Reachable sDone ∧ conserved sDone ∧
      ¬conserved (handlePong 6 echo1 sDone) :=
  ⟨Reachable.step (Reachable.step Reachable.init (Step.connect 0 initialState))
      (Step.pong 5 echo1 sConn),
   by decide, by decide⟩

/-- C1 (amended): `sendPing` and `performLossSweep` always preserve the
conservation law `packetsSent = packetsReceived + lostCount + |pending|`,
but `handlePong` preserves it exactly when the echo's sequence number is
present in the Pending Probe Table; an echo for an absent sequence number
breaks it. -/
theorem C1_conservation_amended :
    (∀ (now : ℤ) (s : ClientState), conserved s →
      conserved (sendPing now s).1) ∧
    (∀ (now : ℤ) (s : ClientState), conserved s →
      conserved (performLossSweep now s)) ∧
    (∀ (now : ℤ) (d : Echo) (s : ClientState), conserved s →
      (conserved (handlePong now d s) ↔
        d.sequenceNumber ∈ s.pendingPings.map Prod.fst)) := by
  refine ⟨?_, ?_, ?_⟩
  · intro now s h
    unfold conserved at *
    unfold sendPing
    split
    · simp only [List.length_append, List.length_cons, List.length_nil]
      omega
    · exact h
  · intro now s h
    unfold conserved at *
    have hsplit := List.length_eq_length_filter_add
      (l := s.pendingPings)
      (expired now ((s.pingInterval : ℤ) * (lossTimeoutFactor : ℤ)))
    simp only [performLossSweep]
    omega
  · intro now d s h
    unfold conserved at *
    by_cases hmem : d.sequenceNumber ∈ s.pendingPings.map Prod.fst
    · have hlen := length_mapDelete_of_mem hmem
      have hpos : 0 < s.pendingPings.length := by
        obtain ⟨p, hp, _⟩ := List.mem_map.mp hmem
        exact List.length_pos.mpr (List.ne_nil_of_mem hp)
      simp only [handlePong, hmem, iff_true]
      omega
    · have hdel := mapDelete_of_not_mem hmem
      simp only [handlePong, hmem, iff_false, hdel]
      omega

/-- Witness for C1 (amended) on the concrete trace. -/
theorem C1_conservation_amended_witness :
    conserved (sendPing 7 sDone).1 ∧
    conserved (performLossSweep 9999 sDone) ∧
    (conserved (handlePong 6 echo1 sDone) ↔
      echo1.sequenceNumber ∈ sDone.pendingPings.map Prod.fst) :=
  ⟨C1_conservation_amended.1 7 sDone (by decide),
   C1_conservation_amended.2.1 9999 sDone (by decide),
   C1_conservation_amended.2.2 6 echo1 sDone (by decide)⟩

/-- C2 counterexample: after `sDone` (reachable, nothing pending) a late
duplicate of `echo1` is not ignored — `handlePong` still increments
`packetsReceived` and pushes an RTT sample into the window. -/
theorem C2_absent_echo_counterexample :
    Reachable sDone ∧
    echo1.sequenceNumber ∉ sDone.pendingPings.map Prod.fst ∧
    (handlePong 6 echo1 sDone).packetsReceived ≠ sDone.packetsReceived ∧
    (handlePong 6 echo1 sDone).rttSamples ≠ sDone.rttSamples :=
  ⟨Reachable.step (Reachable.step Reachable.init (Step.connect 0 initialState))
      (Step.pong 5 echo1 sConn),
   by decide, by decide, by decide⟩

/-- C2 (amended): on an echo whose sequence number is absent from the
Pending Probe Table, `handlePong` leaves `lostCount` and the table
unchanged, but it still increments `packetsReceived` and still pushes
`now - clientSentAt` into the Sample Window. -/
theorem C2_absent_echo_amended :
    ∀ (now : ℤ) (d : Echo) (s : ClientState),
      d.sequenceNumber ∉ s.pendingPings.map Prod.fst →
        (handlePong now d s).lostCount = s.lostCount ∧
        (handlePong now d s).pendingPings = s.pendingPings ∧
        (handlePong now d s).packetsReceived = s.packetsReceived + 1 ∧
        (handlePong now d s).rttSamples =
          pushSample s.rttSamples (now - d.clientSentAt) := by
  intro now d s h
  refine ⟨rfl, ?_, rfl, rfl⟩
  simp only [handlePong]
  exact mapDelete_of_not_mem h

/-- Witness for C2 (amended): the duplicate echo at `sDone`. -/
theorem C2_absent_echo_amended_witness :
    (handlePong 6 echo1 sDone).lostCount = sDone.lostCount ∧
    (handlePong 6 echo1 sDone).pendingPings = sDone.pendingPings ∧
    (handlePong 6 echo1 sDone).packetsReceived = sDone.packetsReceived + 1 ∧
    (handlePong 6 echo1 sDone).rttSamples =
      pushSample sDone.rttSamples (6 - echo1.clientSentAt) :=
  C2_absent_echo_amended 6 echo1 sDone (by decide)

/-- C3 counterexample: `sConn` is reachable, connected, and has probe 1
pending; the `disconnect` handler leaves the Pending Probe Table exactly as
it was, so it does not become empty. -/
theorem C3_disconnect_counterexample :
    Reachable sConn ∧ sConn.connected = true ∧ sConn.pendingPings ≠ [] ∧
    (onDisconnect sConn).pendingPings = sConn.pendingPings ∧
    (onDisconnect sConn).pendingPings ≠ [] :=
  ⟨Reachable.step Reachable.init (Step.connect 0 initialState),
   by decide, by decide, by decide, by decide⟩

/-- C3 (amended): the `disconnect` handler stops both schedules and leaves
every counter, the Sample Window, and the Pending Probe Table unchanged —
the table is not cleared.  In particular cleared entries are indeed never
counted as lost, because nothing at all happens to them. -/
theorem C3_disconnect_amended :
    ∀ s : ClientState,
      (onDisconnect s).connected = false ∧
      (onDisconnect s).pingTimerActive = false ∧
      (onDisconnect s).lossSweepTimerActive = false ∧
      (onDisconnect s).lostCount = s.lostCount ∧
      (onDisconnect s).packetsSent = s.packetsSent ∧
      (onDisconnect s).packetsReceived = s.packetsReceived ∧
      (onDisconnect s).sequenceNumber = s.sequenceNumber ∧
      (onDisconnect s).pendingPings = s.pendingPings ∧
      (onDisconnect s).rttSamples = s.rttSamples :=
  fun _ => ⟨rfl, rfl, rfl, rfl, rfl, rfl, rfl, rfl, rfl⟩

/-- C4 counterexample: probe 1 was sent at time 0 while the interval was
200 (claimed captured timeout 200 × 5 = 1000); the interval then changed to
1000.  A sweep at time 1500 should, per the claim, count probe 1 as lost
(1500 − 0 > 1000), but the code recomputes the timeout from the current
interval (1000 × 5 = 5000) and leaves everything unchanged. -/
theorem C4_sweep_counterexample :
    Reachable sIntervalChanged ∧
    initialState.pingInterval = 200 ∧
    sConn.pendingPings = [(1, 0)] ∧
    sIntervalChanged.pingInterval = 1000 ∧
    (1, 0) ∈ sIntervalChanged.pendingPings ∧
    (1500 : ℤ) - 0 > (200 : ℤ) * (lossTimeoutFactor : ℤ) ∧
    (performLossSweep 1500 sIntervalChanged).lostCount =
      sIntervalChanged.lostCount ∧
    (performLossSweep 1500 sIntervalChanged).pendingPings =
      sIntervalChanged.pendingPings :=
  ⟨Reachable.step (Reachable.step Reachable.init (Step.connect 0 initialState))
      (Step.setIntervalMs 100 1000 sConn),
   by decide, by decide, by decide, by decide, by decide, by decide,
   by decide⟩

/-- C4 (amended): `performLossSweep` keeps a pending entry exactly when
`now - sentAt ≤ timeoutMs` for `timeoutMs = pingInterval × lossTimeoutFactor`
recomputed at sweep time from the current interval setting (so a mid-flight
interval change alters the timeout of probes already in flight), and it
increments `lostCount` by exactly the number of entries it removes. -/
theorem C4_sweep_amended :
    ∀ (now : ℤ) (s : ClientState),
      (∀ e ∈ s.pendingPings,
        (e ∈ (performLossSweep now s).pendingPings ↔
          now - e.2 ≤ (s.pingInterval : ℤ) * (lossTimeoutFactor : ℤ))) ∧
      (performLossSweep now s).pendingPings.length +
          ((performLossSweep now s).lostCount - s.lostCount) =
        s.pendingPings.length ∧
      s.lostCount ≤ (performLossSweep now s).lostCount := by
  intro now s
  refine ⟨?_, ?_, ?_⟩
  · intro e he
    simp [performLossSweep, List.mem_filter, he, expired, not_lt]
  · have hsplit := List.length_eq_length_filter_add
      (l := s.pendingPings)
      (expired now ((s.pingInterval : ℤ) * (lossTimeoutFactor : ℤ)))
    simp only [performLossSweep]
    omega
  · simp only [performLossSweep]
    omega

/-- Witness for C4 (amended) on the concrete trace: probe 1 is kept by the
sweep at time 1500 because 1500 − 0 ≤ 1000 × 5. -/
theorem C4_sweep_amended_witness :
    (1, 0) ∈ (performLossSweep 1500 sIntervalChanged).pendingPings ∧
    (1500 : ℤ) - ((1, (0 : ℤ)) : ℕ × ℤ).2 ≤
      (sIntervalChanged.pingInterval : ℤ) * (lossTimeoutFactor : ℤ) :=
  ⟨((C4_sweep_amended 1500 sIntervalChanged).1 (1, 0) (by decide)).mpr
      (by decide),
   by decide⟩

section WindowLemmas

theorem rttSamples_sendPing (now : ℤ) (s : ClientState) :
    ((sendPing now s).1).rttSamples = s.rttSamples := by
  unfold sendPing
  split <;> rfl

theorem rttSamples_onConnect (now : ℤ) (s : ClientState) :
    (onConnect now s).rttSamples = s.rttSamples := by
  simp [onConnect, startLossSweep, startPinging, rttSamples_sendPing]

theorem rttSamples_changeInterval (now : ℤ) (i : ℕ) (s : ClientState) :
    (changePingInterval now i s).rttSamples = s.rttSamples := by
  simp only [changePingInterval]
  split
  · simp [startLossSweep, startPinging, stopLossSweep, stopPinging,
      rttSamples_sendPing]
  · rfl

theorem length_pushSample_le {samples : List ℤ} (x : ℤ)
    (h : samples.length ≤ maxSamples) :
    (pushSample samples x).length ≤ maxSamples := by
  simp only [pushSample]
  split
  next hlt =>
    simp only [List.length_tail, List.length_append, List.length_cons,
      List.length_nil] at hlt ⊢
    omega
  next hge =>
    simp only [List.length_append, List.length_cons, List.length_nil] at hge ⊢
    omega

theorem window_length_le (s : ClientState) (h : Reachable s) :
    s.rttSamples.length ≤ maxSamples := by
  induction h with
  | init => simp [initialState]
  | step hr hstep ih =>
    cases hstep with
    | connect now s => rw [rttSamples_onConnect]; exact ih
    | disconnect s => exact ih
    | timerPing now s => rw [rttSamples_sendPing]; exact ih
    | pong now d s => exact length_pushSample_le _ ih
    | sweep now s => exact ih
    | setIntervalMs now i s => rw [rttSamples_changeInterval]; exact ih

end WindowLemmas

/-- C5: in every reachable session state the Sample Window holds at most
`maxSamples = 50` RTT values, and a push onto a full window drops exactly
the oldest sample and appends the new one at the end, keeping the order of
the survivors (`pushSample l x = l.tail ++ [x]`). -/
theorem C5_window_fifo :
    (∀ s : ClientState, Reachable s → s.rttSamples.length ≤ maxSamples) ∧
    (∀ (l : List ℤ) (x : ℤ), l.length = maxSamples →
      pushSample l x = l.tail ++ [x]) := by
  constructor
  · exact window_length_le
  · intro l x h
    cases l with
    | nil => simp [maxSamples] at h
    | cons a t =>
      simp only [List.length_cons] at h
      unfold pushSample
      rw [if_pos (by
        simp only [List.length_append, List.length_cons, List.length_nil]
        omega)]
      rfl

/-- Witness for C5: the initial window is within capacity, and pushing onto
a full window of fifty 3s keeps fifty samples, dropping the first. -/
theorem C5_window_fifo_witness :
    initialState.rttSamples.length ≤ maxSamples ∧
    pushSample (List.replicate 50 (3 : ℤ)) 7 =
      (List.replicate 50 (3 : ℤ)).tail ++ [7] :=
  ⟨C5_window_fifo.1 initialState Reachable.init,
   C5_window_fifo.2 (List.replicate 50 (3 : ℤ)) 7 (by decide)⟩

section JitterLemmas

theorem absDiffs_eq_zip : ∀ l : List ℤ,
    absDiffs l = (l.zip l.tail).map (fun p => |p.2 - p.1|)
  | [] => rfl
  | [_] => rfl
  | a :: b :: rest => by
    have ih := absDiffs_eq_zip (b :: rest)
    simp only [absDiffs, List.tail_cons, List.zip_cons_cons, List.map_cons]
    rw [ih]
    simp

theorem absDiffs_replicate (c : ℤ) : ∀ n : ℕ,
    absDiffs (List.replicate n c) = List.replicate (n - 1) (0 : ℤ)
  | 0 => rfl
  | 1 => rfl
  | n + 2 => by
    have ih := absDiffs_replicate c (n + 1)
    rw [List.replicate_succ, List.replicate_succ]
    simp only [absDiffs]
    rw [← List.replicate_succ, ih]
    simp [List.replicate_succ]

theorem round2_zero : round2 0 = 0 := by
  unfold round2 roundJS
  norm_num

theorem jitter_eq_spec (s : ClientState) :
    (calculateMetrics s).jitter = jitterSpec s.rttSamples := by
  simp only [calculateMetrics, jitterSpec]
  split_ifs with h0 h1 h2 <;> first
    | omega
    | rw [absDiffs_eq_zip]
    | rfl

end JitterLemmas

/-- C7: the jitter computed by `calculateMetrics` is exactly the spec's
mean of `|sample[i] − sample[i−1]|` over consecutive pairs rounded to 2
decimals (`jitterSpec`), it is 0 whenever the window has fewer than 2
samples, and it is 0 for every constant window of length at least 2. -/
theorem C7_jitter :
    (∀ s : ClientState,
      (calculateMetrics s).jitter = jitterSpec s.rttSamples) ∧
    (∀ s : ClientState, s.rttSamples.length < 2 →
      (calculateMetrics s).jitter = 0) ∧
    (∀ (s : ClientState) (n : ℕ) (c : ℤ), 2 ≤ n →
      s.rttSamples = List.replicate n c →
      (calculateMetrics s).jitter = 0) := by
  refine ⟨jitter_eq_spec, ?_, ?_⟩
  · intro s h
    rw [jitter_eq_spec, jitterSpec, if_pos h]
  · intro s n c hn hs
    rw [jitter_eq_spec, hs, jitterSpec,
      if_neg (by simp only [List.length_replicate]; omega),
      ← absDiffs_eq_zip, absDiffs_replicate]
    simp [round2_zero]

/-- Witness for C7: the empty window and a constant window of five 10s. -/
theorem C7_jitter_witness :
    (calculateMetrics initialState).jitter = jitterSpec
      initialState.rttSamples ∧
    (calculateMetrics initialState).jitter = 0 ∧
    (calculateMetrics constState).jitter = 0 :=
  ⟨C7_jitter.1 initialState,
   C7_jitter.2.1 initialState (by decide),
   C7_jitter.2.2 constState 5 10 (by decide) rfl⟩

section LossLemmas

theorem budget_sendPing (now : ℤ) (s : ClientState)
    (h : s.lostCount + s.pendingPings.length ≤ s.packetsSent) :
    (sendPing now s).1.lostCount + (sendPing now s).1.pendingPings.length ≤
      (sendPing now s).1.packetsSent := by
  unfold sendPing
  split
  · simp only [List.length_append, List.length_cons, List.length_nil]
    omega
  · exact h

theorem budget_onConnect (now : ℤ) (s : ClientState)
    (h : s.lostCount + s.pendingPings.length ≤ s.packetsSent) :
    (onConnect now s).lostCount + (onConnect now s).pendingPings.length ≤
      (onConnect now s).packetsSent :=
  budget_sendPing now { s with connected := true, pingTimerActive := true } h

theorem budget_onDisconnect (s : ClientState)
    (h : s.lostCount + s.pendingPings.length ≤ s.packetsSent) :
    (onDisconnect s).lostCount + (onDisconnect s).pendingPings.length ≤
      (onDisconnect s).packetsSent :=
  h

theorem budget_handlePong (now : ℤ) (d : Echo) (s : ClientState)
    (h : s.lostCount + s.pendingPings.length ≤ s.packetsSent) :
    (handlePong now d s).lostCount +
        (handlePong now d s).pendingPings.length ≤
      (handlePong now d s).packetsSent := by
  have hle := List.length_eraseP_le (p := fun p => p.1 == d.sequenceNumber)
    s.pendingPings
  simp only [handlePong, mapDelete]
  omega

theorem budget_sweep (now : ℤ) (s : ClientState)
    (h : s.lostCount + s.pendingPings.length ≤ s.packetsSent) :
    (performLossSweep now s).lostCount +
        (performLossSweep now s).pendingPings.length ≤
      (performLossSweep now s).packetsSent := by
  have hsplit := List.length_eq_length_filter_add
    (l := s.pendingPings)
    (expired now ((s.pingInterval : ℤ) * (lossTimeoutFactor : ℤ)))
  simp only [performLossSweep]
  omega

theorem budget_changeInterval (now : ℤ) (i : ℕ) (s : ClientState)
    (h : s.lostCount + s.pendingPings.length ≤ s.packetsSent) :
    (changePingInterval now i s).lostCount +
        (changePingInterval now i s).pendingPings.length ≤
      (changePingInterval now i s).packetsSent := by
  simp only [changePingInterval]
  split
  · exact budget_sendPing now _ h
  · exact h

theorem lost_add_pending_le_sent (s : ClientState) (h : Reachable s) :
    s.lostCount + s.pendingPings.length ≤ s.packetsSent := by
  induction h with
  | init => decide
  | step hr hstep ih =>
    cases hstep with
    | connect now s => exact budget_onConnect _ _ ih
    | disconnect s => exact budget_onDisconnect _ ih
    | timerPing now s => exact budget_sendPing _ _ ih
    | pong now d s => exact budget_handlePong _ _ _ ih
    | sweep now s => exact budget_sweep _ _ ih
    | setIntervalMs now i s => exact budget_changeInterval _ _ _ ih

theorem packetLoss_eq (s : ClientState) :
    (calculateMetrics s).packetLoss =
      round2 ((s.lostCount : ℚ) / ((max s.packetsSent 1 : ℕ) : ℚ) * 100) := by
  simp only [calculateMetrics]
  by_cases h : s.packetsSent = 0
  · simp [h]
  · have hmax : max s.packetsSent 1 = s.packetsSent := Nat.max_eq_left (by omega)
    simp [h, hmax]

end LossLemmas

/-- C8: `calculateMetrics` computes the loss percentage as
`round2(lostCount / max(packetsSent, 1) × 100)` (the source's
`packetsSent || 1` denominator guard), and in every reachable state with
`packetsSent = 0` the result is 0. -/
theorem C8_packetLoss :
    (∀ s : ClientState,
      (calculateMetrics s).packetLoss =
        round2 ((s.lostCount : ℚ) /
          ((max s.packetsSent 1 : ℕ) : ℚ) * 100)) ∧
    (∀ s : ClientState, Reachable s → s.packetsSent = 0 →
      (calculateMetrics s).packetLoss = 0) := by
  constructor
  · exact packetLoss_eq
  · intro s hr h0
    have hinv := lost_add_pending_le_sent s hr
    have hlost : s.lostCount = 0 := by omega
    rw [packetLoss_eq, hlost, h0]
    simpa using round2_zero

/-- Witness for C8 at the initial (reachable) state. -/
theorem C8_packetLoss_witness :
    (calculateMetrics initialState).packetLoss =
      round2 ((initialState.lostCount : ℚ) /
        ((max initialState.packetsSent 1 : ℕ) : ℚ) * 100) ∧
    (calculateMetrics initialState).packetLoss = 0 :=
  ⟨C8_packetLoss.1 initialState,
   C8_packetLoss.2 initialState Reachable.init rfl⟩

end PingPong
